import Mathlib

/-!
Verification of the ARI control-plane run lifecycle engine
(apps/control-plane-api/app/api/runs.py and app/models/core.py).

The database tables pipeline_runs, pipeline_versions and pipeline_run_logs
are modelled as lists of records; each HTTP handler becomes a pure function
from a database state (plus the request parameters and the server clock NOW,
modelled as an integer) to a response paired with the successor state.
SQL UPDATE statements become maps over the run list guarded by the exact
WHERE predicate of the statement; a transaction that aborts by raising an
exception returns the original state, since the SQLAlchemy context manager
db.begin rolls the transaction back when an exception escapes it.
Server-generated UUIDs are modelled as explicit parameters.
-/

namespace ARI

/-- Run lifecycle status stored in pipeline_runs.status. -/
inductive RunStatus
  | QUEUED
  | RUNNING
  | SUCCEEDED
  | FAILED
  | CANCELLED
deriving DecidableEq, Repr

/-- Pipeline version status (DRAFT / APPROVED / DEPRECATED). -/
inductive PvStatus
  | DRAFT
  | APPROVED
  | DEPRECATED
deriving DecidableEq, Repr

/-- Opaque structured JSON objects (run parameters, dag_spec, log meta),
modelled as finite association lists of stringified key-value pairs in
insertion order, which is the order json.dumps serializes a Python dict. -/
abbrev JsonObj := List (String × String)

/-- One row of pipeline_runs, with the columns used by the runs API. -/
structure Run where
  id : String
  tenant_id : String
  pipeline_version_id : String
  status : RunStatus
  trigger_type : String
  parameters : JsonObj
  created_at : Int
  started_at : Option Int
  claimed_at : Option Int
  claimed_by : Option String
  heartbeat_at : Option Int
  finished_at : Option Int
  error_message : Option String
  updated_at : Int
  retry_of_run_id : Option String
  root_run_id : Option String
deriving DecidableEq, Repr

/-- One row of pipeline_versions, restricted to the columns the runs API reads. -/
structure PipelineVersion where
  id : String
  tenant_id : String
  pipeline_id : String
  version : String
  status : PvStatus
  dag_spec : JsonObj
deriving DecidableEq, Repr

/-- One row of pipeline_run_logs. The server-generated uuid primary key is
not modelled; entries live in the append-only list in insertion order. -/
structure LogEntry where
  run_id : String
  tenant_id : String
  ts : Int
  level : String
  message : String
  source : Option String
  meta : Option JsonObj
deriving DecidableEq, Repr

/-- The database state seen by the runs API. -/
structure Db where
  runs : List Run
  versions : List PipelineVersion
  logs : List LogEntry
deriving DecidableEq, Repr

/-- SELECT of a single run by primary key (the helper _get_run_full). -/
def findRun (db : Db) (run_id : String) : Option Run :=
  db.runs.find? (fun r => decide (r.id = run_id))

/-- SELECT of a single pipeline version by primary key. -/
def findVersion (db : Db) (pv_id : String) : Option PipelineVersion :=
  db.versions.find? (fun v => decide (v.id = pv_id))

/-- UPDATE pipeline_runs SET ... WHERE id = run_id, where f computes the SET
clause from the current row. -/
def updateRun (db : Db) (run_id : String) (f : Run → Run) : Db :=
  { db with runs := db.runs.map (fun r => if r.id = run_id then f r else r) }

/-- INSERT INTO pipeline_run_logs. -/
def appendLog (db : Db) (e : LogEntry) : Db :=
  { db with logs := db.logs ++ [e] }

/-- Python truthiness of the optional tenant filter in claim_run: both a
missing tenant_id and the empty string leave the filter off. -/
def tenantMatches (tenant_id : Option String) (r : Run) : Bool :=
  match tenant_id with
  | none => true
  | some t => if t = "" then true else decide (r.tenant_id = t)

/-- ORDER BY created_at ASC ... LIMIT 1 over a result set. Ties are broken
in an implementation-defined way (here: first in table order). -/
def oldestBy : List Run → Option Run
  | [] => none
  | r :: rs =>
    match oldestBy rs with
    | none => some r
    | some m => if r.created_at ≤ m.created_at then some r else some m

/-- The result set of the claim SELECT: status QUEUED, plus the optional
tenant filter. -/
def queuedMatching (db : Db) (tenant_id : Option String) : List Run :=
  db.runs.filter (fun r => decide (r.status = RunStatus.QUEUED) && tenantMatches tenant_id r)

/-- The SET clause of the claim UPDATE: status RUNNING,
started_at = COALESCE(started_at, NOW()), claimed_at = NOW(),
claimed_by = worker_id, heartbeat_at = NOW(), updated_at = NOW(). -/
def claimUpdate (worker_id : String) (now : Int) (r : Run) : Run :=
  { r with
    status := RunStatus.RUNNING
    started_at := some (r.started_at.getD now)
    claimed_at := some now
    claimed_by := some worker_id
    heartbeat_at := some now
    updated_at := now }

/-- Responses of POST /api/runs/claim. -/
inductive ClaimResult
  | notClaimed
  | claimed (run : Run) (pv : PipelineVersion)
  | versionNotFound
deriving DecidableEq, Repr

/-- POST /api/runs/claim (claim_run). Selects the oldest QUEUED run matching
the optional tenant filter, updates it to RUNNING, then loads the referenced
pipeline version. If the version row is missing the handler raises a 409
HTTPException inside the db.begin block, which rolls the whole transaction
back, so the state is returned unchanged in that branch. -/
def claim_run (db : Db) (worker_id : String) (tenant_id : Option String) (now : Int) :
    ClaimResult × Db :=
  match oldestBy (queuedMatching db tenant_id) with
  | none => (ClaimResult.notClaimed, db)
  | some r =>
    match findVersion db r.pipeline_version_id with
    | none => (ClaimResult.versionNotFound, db)
    | some pv =>
      (ClaimResult.claimed (claimUpdate worker_id now r) pv,
        updateRun db r.id (claimUpdate worker_id now))

/-- The request body of complete restricts status to SUCCEEDED or FAILED. -/
inductive CompleteStatus
  | SUCCEEDED
  | FAILED
deriving DecidableEq, Repr

/-- The terminal run status written by complete. -/
def CompleteStatus.toRunStatus : CompleteStatus → RunStatus
  | CompleteStatus.SUCCEEDED => RunStatus.SUCCEEDED
  | CompleteStatus.FAILED => RunStatus.FAILED

/-- Responses of POST /api/runs/run_id/complete. -/
inductive CompleteResult
  | ok (run : Run)
  | conflict
deriving DecidableEq, Repr

/-- The SET clause of the complete UPDATE: the new terminal status,
finished_at = NOW(), heartbeat_at = NOW(), updated_at = NOW(), and
error_message only when the new status is FAILED, otherwise forced null. -/
def completeUpdate (status : CompleteStatus) (error_message : Option String)
    (now : Int) (r : Run) : Run :=
  { r with
    status := status.toRunStatus
    finished_at := some now
    heartbeat_at := some now
    error_message :=
      match status with
      | CompleteStatus.FAILED => error_message
      | CompleteStatus.SUCCEEDED => none
    updated_at := now }

/-- POST /api/runs/run_id/complete (complete_run). A single UPDATE guarded
by WHERE id = run_id AND status = RUNNING; zero affected rows yields a 409
conflict and the transaction commits with no effect. -/
def complete_run (db : Db) (run_id : String) (status : CompleteStatus)
    (error_message : Option String) (now : Int) : CompleteResult × Db :=
  match db.runs.find?
      (fun r => decide (r.id = run_id) && decide (r.status = RunStatus.RUNNING)) with
  | none => (CompleteResult.conflict, db)
  | some r =>
    (CompleteResult.ok (completeUpdate status error_message now r),
      { db with runs := db.runs.map (fun x =>
          if x.id = run_id ∧ x.status = RunStatus.RUNNING
          then completeUpdate status error_message now x else x) })

/-- Responses of POST /api/runs/run_id/heartbeat. -/
inductive HeartbeatResult
  | runNotFound
  | notRunning (status : RunStatus)
  | workerMismatch (claimed_by : Option String)
  | ok (heartbeat_at : Int)
deriving DecidableEq, Repr

/-- POST /api/runs/run_id/heartbeat (heartbeat_run). Reads the run, rejects
a missing run, a non-RUNNING run, and a worker other than the claiming one;
otherwise refreshes heartbeat_at and updated_at with an UPDATE whose WHERE
clause re-checks the same predicates. -/
def heartbeat_run (db : Db) (run_id : String) (worker_id : String) (now : Int) :
    HeartbeatResult × Db :=
  match findRun db run_id with
  | none => (HeartbeatResult.runNotFound, db)
  | some run =>
    if run.status ≠ RunStatus.RUNNING then
      (HeartbeatResult.notRunning run.status, db)
    else if run.claimed_by ≠ some worker_id then
      (HeartbeatResult.workerMismatch run.claimed_by, db)
    else
      (HeartbeatResult.ok now,
        { db with runs := db.runs.map (fun r =>
            if r.id = run_id ∧ r.status = RunStatus.RUNNING ∧ r.claimed_by = some worker_id
            then { r with heartbeat_at := some now, updated_at := now } else r) })

/-- Responses of POST /api/runs/run_id/cancel. -/
inductive CancelResult
  | runNotFound
  | invalidState (status : RunStatus)
  | ok
deriving DecidableEq, Repr

/-- The SET clause of the cancel UPDATE. -/
def cancelUpdate (now : Int) (r : Run) : Run :=
  { r with
    status := RunStatus.CANCELLED
    finished_at := some now
    updated_at := now
    error_message := some "Cancelled by admin" }

/-- POST /api/runs/run_id/cancel (cancel_run). Allowed from QUEUED and
RUNNING; the UPDATE re-checks the status set in its WHERE clause, then a
WARN log entry is inserted. -/
def cancel_run (db : Db) (run_id : String) (now : Int) : CancelResult × Db :=
  match findRun db run_id with
  | none => (CancelResult.runNotFound, db)
  | some run =>
    if run.status ≠ RunStatus.QUEUED ∧ run.status ≠ RunStatus.RUNNING then
      (CancelResult.invalidState run.status, db)
    else
      (CancelResult.ok,
        appendLog
          { db with runs := db.runs.map (fun x =>
              if x.id = run_id ∧ (x.status = RunStatus.QUEUED ∨ x.status = RunStatus.RUNNING)
              then cancelUpdate now x else x) }
          { run_id := run_id
            tenant_id := run.tenant_id
            ts := now
            level := "WARN"
            message := "Run cancelled"
            source := some "control-plane"
            meta := some [("status", "CANCELLED")] })

/-- Responses of POST /api/runs/run_id/retry. The typeError outcome is the
unhandled Python TypeError surfacing as a server error (HTTP 500); the ok
outcome is the 200 response shape the handler text describes, unreachable in
the current source. -/
inductive RetryResult
  | runNotFound
  | invalidState (status : RunStatus)
  | versionNotFound
  | versionNotApproved
  | typeError
  | ok (run : Run)
deriving DecidableEq, Repr

/-- Python truthiness on the root_run_id of the parent: both null and the
empty string fall back to the parent id. -/
def rootRunIdOf (parent_root : Option String) (run_id : String) : String :=
  match parent_root with
  | some s => if s = "" then run_id else s
  | none => run_id

/-- First step of retry_run: validate the parent run (404 when missing, 409
unless FAILED or CANCELLED) and its pipeline version (409 when missing, 400
unless APPROVED). The handler then computes the override-or-parent
parameters and the root run id (rootRunIdOf, plain Python that still runs)
and calls the PipelineRun constructor with retry_of_run_id and root_run_id
keyword arguments; the declarative PipelineRun model in app/models/core.py
maps neither of those columns, so the SQLAlchemy constructor raises
TypeError there. The exception escapes before db.add, so nothing is staged
or committed and the request fails as a server error with the state
unchanged. The new_id parameter stands for the uuid the insert would have
generated; it is never consumed because the constructor raises first. -/
def retry_insert_txn (db : Db) (run_id : String) (override : Option JsonObj)
    (new_id : String) (now : Int) : RetryResult × Db :=
  match findRun db run_id with
  | none => (RetryResult.runNotFound, db)
  | some run =>
    if run.status ≠ RunStatus.FAILED ∧ run.status ≠ RunStatus.CANCELLED then
      (RetryResult.invalidState run.status, db)
    else
      match findVersion db run.pipeline_version_id with
      | none => (RetryResult.versionNotFound, db)
      | some pv =>
        if pv.status ≠ PvStatus.APPROVED then
          (RetryResult.versionNotApproved, db)
        else
          (RetryResult.typeError, db)

/-- Second transaction the retry_run source text describes: insert the retry
lineage log entry on the new run and commit again. Unreachable in the
current source because the insert step raises TypeError first. -/
def retry_log_txn (db : Db) (newRun : Run) (run_id : String) (now : Int) : Db :=
  appendLog db
    { run_id := newRun.id
      tenant_id := newRun.tenant_id
      ts := now
      level := "INFO"
      message := "Retry of " ++ run_id
      source := some "control-plane"
      meta := some [("retry_of", run_id)] }

/-- POST /api/runs/run_id/retry (retry_run): the insert step followed, on a
successful insert, by the log transaction. In the current source the insert
step always ends in the constructor TypeError once the checks pass, so the
ok branch and the log transaction are dead code kept to mirror the handler
text. -/
def retry_run (db : Db) (run_id : String) (override : Option JsonObj)
    (new_id : String) (now : Int) : RetryResult × Db :=
  match retry_insert_txn db run_id override new_id now with
  | (RetryResult.ok newRun, db1) =>
    (RetryResult.ok newRun, retry_log_txn db1 newRun run_id now)
  | other => other

/-- Comparison by created_at, the ORDER BY created_at ASC key of the reap
SELECT. -/
def runCreatedLE (a b : Run) : Prop := a.created_at ≤ b.created_at

instance : DecidableRel runCreatedLE :=
  fun a b => inferInstanceAs (Decidable (a.created_at ≤ b.created_at))

instance : IsTotal Run runCreatedLE :=
  ⟨fun a b => Int.le_total a.created_at b.created_at⟩

instance : IsTrans Run runCreatedLE :=
  ⟨fun _ _ _ => Int.le_trans⟩

/-- The WHERE clause of the reap SELECT: status RUNNING and heartbeat_at
either null or older than NOW() minus the stale threshold. -/
def isStale (stale_seconds : Int) (now : Int) (r : Run) : Bool :=
  decide (r.status = RunStatus.RUNNING) &&
    (match r.heartbeat_at with
     | none => true
     | some hb => decide (hb < now - stale_seconds))

/-- The rows selected by reap-stale: the stale RUNNING runs, ordered by
created_at ascending, LIMIT limit. -/
def reapSelect (db : Db) (stale_seconds : Int) (limit : Nat) (now : Int) : List Run :=
  (List.insertionSort runCreatedLE (db.runs.filter (isStale stale_seconds now))).take limit

/-- The SET clause of the per-row reap UPDATE. -/
def reapUpdate (stale_seconds : Int) (now : Int) (r : Run) : Run :=
  { r with
    status := RunStatus.FAILED
    finished_at := some now
    updated_at := now
    error_message := some ("Stale: no heartbeat for " ++ toString stale_seconds ++ "s") }

/-- The log entry the reaper inserts for one reaped run. The meta object
carries stale_after_seconds and, when the old heartbeat was non-null,
last_heartbeat_at, in that insertion order. -/
def staleLog (stale_seconds : Int) (now : Int) (r : Run) : LogEntry :=
  { run_id := r.id
    tenant_id := r.tenant_id
    ts := now
    level := "WARN"
    message := "Run marked stale by reaper"
    source := some "control-plane"
    meta := some ([("stale_after_seconds", toString stale_seconds)] ++
      (match r.heartbeat_at with
       | some hb => [("last_heartbeat_at", toString hb)]
       | none => [])) }

/-- The body of the reap loop: for each selected row, an UPDATE by id and a
log insert, in table order of the selection. -/
def reapFold (stale_seconds : Int) (now : Int) (sel : List Run) (db : Db) : Db :=
  sel.foldl
    (fun acc r => appendLog (updateRun acc r.id (reapUpdate stale_seconds now))
      (staleLog stale_seconds now r))
    db

/-- POST /api/runs/reap-stale (reap_stale). Clamps limit into the range one
to five hundred and the stale threshold to at least one second, selects the
stale RUNNING rows, then fails each and appends its WARN log entry. Returns
the count and the ids of the reaped runs. -/
def reap_stale (db : Db) (stale_after_seconds : Int) (limit : Int) (now : Int) :
    (Nat × List String) × Db :=
  let limitC := max 1 (min limit 500)
  let staleC := max 1 stale_after_seconds
  let sel := reapSelect db staleC limitC.toNat now
  ((sel.length, sel.map Run.id), reapFold staleC now sel db)

/-- Comparison of log entries by ts ascending (ORDER BY ts ASC). -/
def logTsLE (a b : LogEntry) : Prop := a.ts ≤ b.ts

/-- Comparison of log entries by ts descending (ORDER BY ts DESC). -/
def logTsGE (a b : LogEntry) : Prop := b.ts ≤ a.ts

instance : DecidableRel logTsLE :=
  fun a b => inferInstanceAs (Decidable (a.ts ≤ b.ts))

instance : DecidableRel logTsGE :=
  fun a b => inferInstanceAs (Decidable (b.ts ≤ a.ts))

instance : IsTotal LogEntry logTsLE := ⟨fun a b => Int.le_total a.ts b.ts⟩

instance : IsTotal LogEntry logTsGE := ⟨fun a b => Int.le_total b.ts a.ts⟩

instance : IsTrans LogEntry logTsLE := ⟨fun _ _ _ => Int.le_trans⟩

instance : IsTrans LogEntry logTsGE := ⟨fun _ _ _ h h2 => Int.le_trans h2 h⟩

/-- The WHERE clause of the log query: run_id plus the optional ts window. -/
def logMatches (run_id : String) (before_ts after_ts : Option Int) (l : LogEntry) : Bool :=
  decide (l.run_id = run_id) &&
    (match before_ts with
     | none => true
     | some b => decide (l.ts < b)) &&
    (match after_ts with
     | none => true
     | some a => decide (a < l.ts))

/-- Responses of GET /api/runs/run_id/logs. A limit outside the declared
bounds is rejected by the framework validation of the query parameter
(Query with ge one and le one thousand) with a 422 before the handler runs. -/
inductive LogsResult
  | validationError
  | runNotFound
  | ok (logs : List LogEntry)
deriving DecidableEq, Repr

/-- GET /api/runs/run_id/logs (get_run_logs). The limit query parameter
defaults to 200 and is validated, not clamped, against the range from one to
one thousand; then the run must exist, and the matching log entries are
returned ordered by ts in the requested direction, LIMIT limit. -/
def get_run_logs (db : Db) (run_id : String) (limit : Option Int)
    (before_ts after_ts : Option Int) (order : String) : LogsResult :=
  let lim := limit.getD 200
  if ¬ (1 ≤ lim ∧ lim ≤ 1000) then LogsResult.validationError
  else
    match findRun db run_id with
    | none => LogsResult.runNotFound
    | some _ =>
      let rows := db.logs.filter (logMatches run_id before_ts after_ts)
      let sorted :=
        if order.toLower = "desc"
        then List.insertionSort logTsGE rows
        else List.insertionSort logTsLE rows
      LogsResult.ok (sorted.take lim.toNat)

/-- A sequence of claim calls (one per worker id, no tenant filter), in the
serialization order the row locks impose on concurrent claim transactions. -/
def runClaims (db : Db) (workers : List String) (now : Int) : List ClaimResult × Db :=
  match workers with
  | [] => ([], db)
  | w :: ws =>
    let step := claim_run db w none now
    let rest := runClaims step.2 ws now
    (step.1 :: rest.1, rest.2)

/-- The run id returned by a successful claim. -/
def ClaimResult.claimedId : ClaimResult → Option String
  | ClaimResult.claimed r _ => some r.id
  | _ => none

/-- The run ids returned by the successful claims of a sequence. -/
def claimedIds (results : List ClaimResult) : List String :=
  results.filterMap ClaimResult.claimedId

/-- Number of QUEUED rows. -/
def queuedCount (db : Db) : Nat :=
  (db.runs.filter (fun r => decide (r.status = RunStatus.QUEUED))).length

/-- Ids of the QUEUED rows. -/
def queuedIds (db : Db) : List String :=
  (db.runs.filter (fun r => decide (r.status = RunStatus.QUEUED))).map Run.id

/-- Primary-key integrity of pipeline_runs: ids are pairwise distinct. -/
abbrev RunIdsNodup (db : Db) : Prop := (db.runs.map Run.id).Nodup

/-- Referential integrity the catalog guarantees at insert: every QUEUED run
references an existing pipeline version. -/
abbrev PvClosed (db : Db) : Prop :=
  ∀ r ∈ db.runs, r.status = RunStatus.QUEUED →
    (findVersion db r.pipeline_version_id).isSome = true

/-- Terminal statuses: SUCCEEDED, FAILED, CANCELLED. -/
def RunStatus.isTerminal : RunStatus → Bool
  | RunStatus.SUCCEEDED => true
  | RunStatus.FAILED => true
  | RunStatus.CANCELLED => true
  | _ => false

/-- The data-model invariant that terminal runs carry a finish time. -/
abbrev TerminalFinished (db : Db) : Prop :=
  ∀ r ∈ db.runs, r.status.isTerminal = true → r.finished_at ≠ none

/-- One operation of the run lifecycle interface, with the server clock and
any server-generated uuid made explicit. -/
inductive Op
  | claim (worker_id : String) (tenant_id : Option String) (now : Int)
  | heartbeat (run_id worker_id : String) (now : Int)
  | complete (run_id : String) (status : CompleteStatus) (error_message : Option String) (now : Int)
  | cancel (run_id : String) (now : Int)
  | retry (run_id : String) (override : Option JsonObj) (new_id : String) (now : Int)
  | reapStale (stale_after_seconds limit now : Int)

/-- The state transformer of one interface operation. -/
def applyOp (op : Op) (db : Db) : Db :=
  match op with
  | Op.claim w t n => (claim_run db w t n).2
  | Op.heartbeat rid w n => (heartbeat_run db rid w n).2
  | Op.complete rid st e n => (complete_run db rid st e n).2
  | Op.cancel rid n => (cancel_run db rid n).2
  | Op.retry rid o nid n => (retry_run db rid o nid n).2
  | Op.reapStale s l n => (reap_stale db s l n).2

/-- Freshness of the uuid the database generates for the run a retry
inserts. -/
def Op.wf : Op → Db → Prop
  | Op.retry _ _ new_id _, db => new_id ∉ db.runs.map Run.id
  | _, _ => True

/-- Fixture: an APPROVED pipeline version. -/
def pvA : PipelineVersion :=
  { id := "pv1", tenant_id := "t1", pipeline_id := "pl1", version := "v1",
    status := PvStatus.APPROVED, dag_spec := [] }

/-- Fixture: a RUNNING run claimed by worker w1. -/
def runRunning : Run :=
  { id := "r1", tenant_id := "t1", pipeline_version_id := "pv1",
    status := RunStatus.RUNNING, trigger_type := "manual", parameters := [],
    created_at := 0, started_at := some 1, claimed_at := some 1,
    claimed_by := some "w1", heartbeat_at := some 1, finished_at := none,
    error_message := none, updated_at := 1, retry_of_run_id := none,
    root_run_id := none }

/-- Fixture: one RUNNING run with its pipeline version. -/
def dbRunning : Db := { runs := [runRunning], versions := [pvA], logs := [] }

/-- Fixture: a QUEUED run whose pipeline version row is absent. -/
def runQueuedNoPv : Run :=
  { id := "r1", tenant_id := "t1", pipeline_version_id := "pvMissing",
    status := RunStatus.QUEUED, trigger_type := "manual", parameters := [],
    created_at := 0, started_at := none, claimed_at := none,
    claimed_by := none, heartbeat_at := none, finished_at := none,
    error_message := none, updated_at := 0, retry_of_run_id := none,
    root_run_id := none }

/-- Fixture: a database where the only QUEUED run dangles. -/
def dbNoPv : Db := { runs := [runQueuedNoPv], versions := [], logs := [] }

/-- Fixture: a FAILED run eligible for retry. -/
def runFailed : Run :=
  { id := "r0", tenant_id := "t1", pipeline_version_id := "pv1",
    status := RunStatus.FAILED, trigger_type := "manual",
    parameters := [("k", "v")], created_at := 0, started_at := some 1,
    claimed_at := some 1, claimed_by := some "w1", heartbeat_at := some 2,
    finished_at := some 3, error_message := some "boom", updated_at := 3,
    retry_of_run_id := none, root_run_id := none }

/-- Fixture: a FAILED run with its APPROVED version. -/
def dbFailed : Db := { runs := [runFailed], versions := [pvA], logs := [] }

/-- Fixture: the RUNNING run together with two of its log entries. -/
def dbLogs : Db :=
  { runs := [runRunning], versions := [pvA],
    logs :=
      [{ run_id := "r1", tenant_id := "t1", ts := 5, level := "INFO",
         message := "step one", source := none, meta := none },
       { run_id := "r1", tenant_id := "t1", ts := 3, level := "INFO",
         message := "step zero", source := none, meta := none }] }

/-- Fixture: a QUEUED run created later. -/
def runQ1 : Run :=
  { id := "q1", tenant_id := "t1", pipeline_version_id := "pv1",
    status := RunStatus.QUEUED, trigger_type := "manual", parameters := [],
    created_at := 5, started_at := none, claimed_at := none,
    claimed_by := none, heartbeat_at := none, finished_at := none,
    error_message := none, updated_at := 5, retry_of_run_id := none,
    root_run_id := none }

/-- Fixture: a QUEUED run created earlier, hence first in claim order. -/
def runQ2 : Run :=
  { id := "q2", tenant_id := "t1", pipeline_version_id := "pv1",
    status := RunStatus.QUEUED, trigger_type := "manual", parameters := [],
    created_at := 3, started_at := none, claimed_at := none,
    claimed_by := none, heartbeat_at := none, finished_at := none,
    error_message := none, updated_at := 3, retry_of_run_id := none,
    root_run_id := none }

/-- Fixture: a queue of two QUEUED runs with their APPROVED version. -/
def dbQueue : Db := { runs := [runQ1, runQ2], versions := [pvA], logs := [] }

/-- Fixture: a RUNNING run whose heartbeat is long stale. -/
def runStale : Run :=
  { id := "rs", tenant_id := "t1", pipeline_version_id := "pv1",
    status := RunStatus.RUNNING, trigger_type := "manual", parameters := [],
    created_at := 1, started_at := some 2, claimed_at := some 2,
    claimed_by := some "w1", heartbeat_at := some 10, finished_at := none,
    error_message := none, updated_at := 10, retry_of_run_id := none,
    root_run_id := none }

/-- Fixture: a RUNNING run with a recent heartbeat. -/
def runFresh : Run :=
  { id := "rf", tenant_id := "t1", pipeline_version_id := "pv1",
    status := RunStatus.RUNNING, trigger_type := "manual", parameters := [],
    created_at := 2, started_at := some 3, claimed_at := some 3,
    claimed_by := some "w2", heartbeat_at := some 395, finished_at := none,
    error_message := none, updated_at := 395, retry_of_run_id := none,
    root_run_id := none }

/-- Fixture: one stale and one fresh RUNNING run. -/
def dbStale : Db := { runs := [runStale, runFresh], versions := [pvA], logs := [] }

/-! ### Theorems -/

theorem run_id_inj {db : Db} (h : RunIdsNodup db) {x y : Run}
    (hx : x ∈ db.runs) (hy : y ∈ db.runs) (hxy : x.id = y.id) : x = y :=
  List.inj_on_of_nodup_map h hx hy hxy

theorem findRun_id {db : Db} {i : String} {r : Run}
    (h : findRun db i = some r) : r.id = i := by
  have := List.find?_some h
  simpa using this

theorem findRun_mem {db : Db} {i : String} {r : Run}
    (h : findRun db i = some r) : r ∈ db.runs :=
  List.mem_of_find?_eq_some h

theorem findRun_of_mem {db : Db} (h : RunIdsNodup db) {r : Run}
    (hr : r ∈ db.runs) : findRun db r.id = some r := by
  have hs : (db.runs.find? (fun x => decide (x.id = r.id))).isSome := by
    rw [List.find?_isSome]
    exact ⟨r, hr, by simp⟩
  obtain ⟨x, hx⟩ := Option.isSome_iff_exists.mp hs
  have hmem : x ∈ db.runs := List.mem_of_find?_eq_some hx
  have hpx : x.id = r.id := by simpa using List.find?_some hx
  show db.runs.find? (fun x => decide (x.id = r.id)) = some r
  rw [hx]
  exact congrArg some (run_id_inj h hmem hr hpx)

theorem oldestBy_eq_none {l : List Run} : oldestBy l = none ↔ l = [] := by
  cases l with
  | nil => simp [oldestBy]
  | cons r rs =>
    simp only [oldestBy]
    cases h : oldestBy rs <;> simp [h] <;> split <;> simp

theorem oldestBy_mem {l : List Run} {r : Run} (h : oldestBy l = some r) : r ∈ l := by
  induction l generalizing r with
  | nil => simp [oldestBy] at h
  | cons x xs ih =>
    simp only [oldestBy] at h
    cases hx : oldestBy xs with
    | none =>
      rw [hx] at h
      dsimp only at h
      cases h
      exact List.mem_cons_self x xs
    | some m =>
      rw [hx] at h
      dsimp only at h
      by_cases hc : x.created_at ≤ m.created_at
      · rw [if_pos hc] at h
        cases h
        exact List.mem_cons_self x xs
      · rw [if_neg hc] at h
        cases h
        exact List.mem_cons_of_mem x (ih hx)

theorem oldestBy_le {l : List Run} {r : Run} (h : oldestBy l = some r) :
    ∀ x ∈ l, r.created_at ≤ x.created_at := by
  induction l generalizing r with
  | nil => simp [oldestBy] at h
  | cons x xs ih =>
    simp only [oldestBy] at h
    intro y hy
    cases hx : oldestBy xs with
    | none =>
      rw [hx] at h
      dsimp only at h
      cases h
      rcases List.mem_cons.mp hy with hy | hy
      · rw [hy]
      · rw [oldestBy_eq_none.mp hx] at hy
        simp at hy
    | some m =>
      rw [hx] at h
      dsimp only at h
      by_cases hc : x.created_at ≤ m.created_at
      · rw [if_pos hc] at h
        cases h
        rcases List.mem_cons.mp hy with hy | hy
        · rw [hy]
        · exact le_trans hc (ih hx y hy)
      · rw [if_neg hc] at h
        cases h
        rcases List.mem_cons.mp hy with hy | hy
        · rw [hy]
          exact le_of_lt (lt_of_not_le hc)
        · exact ih hx y hy

theorem updateRun_map_id (db : Db) (i : String) (f : Run → Run)
    (hf : ∀ r, (f r).id = r.id) :
    (updateRun db i f).runs.map Run.id = db.runs.map Run.id := by
  show (db.runs.map (fun r => if r.id = i then f r else r)).map Run.id = db.runs.map Run.id
  rw [List.map_map]
  refine List.map_congr_left ?_
  intro x _
  by_cases h : x.id = i <;> simp [h, hf]

theorem findRun_updateRun (db : Db) (i j : String) (f : Run → Run)
    (hf : ∀ r, (f r).id = r.id) :
    findRun (updateRun db i f) j =
      (findRun db j).map (fun x => if x.id = i then f x else x) := by
  show List.find? (fun x => decide (x.id = j))
      (db.runs.map (fun r => if r.id = i then f r else r)) =
    (db.runs.find? (fun x => decide (x.id = j))).map (fun x => if x.id = i then f x else x)
  rw [List.find?_map]
  have hpred : ((fun x => decide (x.id = j)) ∘ fun r => if r.id = i then f r else r) =
      (fun x : Run => decide (x.id = j)) := by
    funext x
    by_cases h : x.id = i <;> simp [Function.comp, h, hf]
  rw [hpred]

/-- C7: for a RUNNING run claimed by w1, a heartbeat from a different worker
w2 returns a 409 conflict carrying reason worker_mismatch and claimed_by w1,
and the database state, hence every field of the run, is unchanged. -/
theorem heartbeat_worker_mismatch (db : Db) (rid w1 w2 : String) (now : Int)
    (r : Run) (hr : findRun db rid = some r)
    (hrun : r.status = RunStatus.RUNNING)
    (hcb : r.claimed_by = some w1) (hne : w2 ≠ w1) :
    heartbeat_run db rid w2 now = (HeartbeatResult.workerMismatch (some w1), db) := by
  unfold heartbeat_run
  rw [hr]
  dsimp only
  rw [if_neg (by simp [hrun])]
  rw [if_pos (by simp [hcb]; exact fun h => hne h.symm)]
  rw [hcb]

theorem heartbeat_worker_mismatch_witness :
    findRun dbRunning "r1" = some runRunning ∧
    runRunning.status = RunStatus.RUNNING ∧
    runRunning.claimed_by = some "w1" ∧
    ("w2" : String) ≠ "w1" ∧
    heartbeat_run dbRunning "r1" "w2" 5 =
      (HeartbeatResult.workerMismatch (some "w1"), dbRunning) :=
  ⟨rfl, rfl, rfl, by decide,
    heartbeat_worker_mismatch dbRunning "r1" "w1" "w2" 5 runRunning rfl rfl rfl (by decide)⟩

/-- C6 counterexample: with a single QUEUED run whose pipeline version row is
missing, claim does return the 409 conflict, but the transition to RUNNING
does not persist: the HTTPException aborts the db.begin transaction, which
rolls it back, so after the call the selected run is still QUEUED and the
state is unchanged. -/
theorem claim_version_missing_counterexample :
    claim_run dbNoPv "w1" none 100 = (ClaimResult.versionNotFound, dbNoPv) ∧
    (findRun (claim_run dbNoPv "w1" none 100).2 "r1").map Run.status =
      some RunStatus.QUEUED :=
  ⟨rfl, rfl⟩

/-- C6 amended: when the claim SELECT picks a QUEUED run whose pipeline
version row does not exist, the call fails with the 409 conflict and the
whole transaction is rolled back: the state after the call equals the state
before it, so the selected run is still QUEUED. -/
theorem claim_version_missing_rolls_back (db : Db) (w : String)
    (t : Option String) (now : Int) (r : Run)
    (hsel : oldestBy (queuedMatching db t) = some r)
    (hpv : findVersion db r.pipeline_version_id = none) :
    claim_run db w t now = (ClaimResult.versionNotFound, db) := by
  unfold claim_run
  rw [hsel]
  dsimp only
  rw [hpv]

theorem claim_version_missing_rolls_back_witness :
    oldestBy (queuedMatching dbNoPv none) = some runQueuedNoPv ∧
    findVersion dbNoPv runQueuedNoPv.pipeline_version_id = none ∧
    claim_run dbNoPv "w1" none 100 = (ClaimResult.versionNotFound, dbNoPv) :=
  ⟨rfl, rfl,
    claim_version_missing_rolls_back dbNoPv "w1" none 100 runQueuedNoPv rfl rfl⟩

/-- C10: the intermediate durable state the claim describes for retry (child
run committed, retry log entry absent) is unreachable. On a retryable FAILED
parent the insert step ends in the TypeError the PipelineRun constructor
raises before db.add, so the first commit never happens: the insert step
returns the state unchanged, the whole call adds no run and writes no log
entry, and in particular no moment exists at which a committed child run
lacks its retry log entry. -/
theorem retry_no_commit_before_crash :
    (retry_insert_txn dbFailed "r0" none "r1" 50).1 = RetryResult.typeError ∧
    (retry_insert_txn dbFailed "r0" none "r1" 50).2 = dbFailed ∧
    (retry_run dbFailed "r0" none "r1" 50).2.runs = dbFailed.runs ∧
    (retry_run dbFailed "r0" none "r1" 50).2.logs = [] := by
  decide

/-- C8 counterexample: on an existing run, a log query whose limit lies
outside the declared range is rejected by the query-parameter validation
with a 422 error instead of succeeding with a clamped limit. -/
theorem get_run_logs_unclamped_counterexample :
    findRun dbRunning "r1" ≠ none ∧
    get_run_logs dbRunning "r1" (some 2000) none none "asc" =
      LogsResult.validationError := by
  constructor
  · intro h
    cases h
  · rfl

/-- C8 amended: the limit defaults to 200 when omitted and must lie in the
range from 1 to 1000; a limit outside that range is rejected with a 422
validation error rather than clamped, and for an in-range limit on an
existing run the query succeeds and returns at most limit entries matching
the filters, ordered by ts in the requested direction. -/
theorem get_run_logs_validated_spec (db : Db) (rid : String)
    (limit : Option Int) (before_ts after_ts : Option Int) (order : String)
    (r : Run) (hr : findRun db rid = some r)
    (hl : ∀ n, limit = some n → 1 ≤ n ∧ n ≤ 1000) :
    ∃ logs, get_run_logs db rid limit before_ts after_ts order = LogsResult.ok logs ∧
      logs.length ≤ (limit.getD 200).toNat ∧
      (∀ l ∈ logs, logMatches rid before_ts after_ts l = true) ∧
      (order.toLower = "desc" → List.Sorted logTsGE logs) ∧
      (order.toLower ≠ "desc" → List.Sorted logTsLE logs) := by
  have hin : 1 ≤ limit.getD 200 ∧ limit.getD 200 ≤ 1000 := by
    cases limit with
    | none => exact ⟨by decide, by decide⟩
    | some n => exact hl n rfl
  unfold get_run_logs
  rw [if_neg (by simp only [not_not]; exact hin)]
  rw [hr]
  refine ⟨_, rfl, ?_, ?_, ?_, ?_⟩
  · exact List.length_take_le _ _
  · intro l hlmem
    have h1 := List.mem_of_mem_take hlmem
    by_cases ho : order.toLower = "desc"
    · rw [if_pos ho] at h1
      simp only [List.mem_insertionSort] at h1
      exact (List.mem_filter.mp h1).2
    · rw [if_neg ho] at h1
      simp only [List.mem_insertionSort] at h1
      exact (List.mem_filter.mp h1).2
  · intro ho
    rw [if_pos ho]
    exact List.Pairwise.sublist (List.take_sublist _ _) (List.sorted_insertionSort _ _)
  · intro ho
    rw [if_neg ho]
    exact List.Pairwise.sublist (List.take_sublist _ _) (List.sorted_insertionSort _ _)

theorem get_run_logs_validated_spec_witness :
    findRun dbLogs "r1" = some runRunning ∧
    ∃ logs, get_run_logs dbLogs "r1" (some 10) none none "asc" = LogsResult.ok logs ∧
      logs.length ≤ ((some (10 : Int)).getD 200).toNat ∧
      (∀ l ∈ logs, logMatches "r1" none none l = true) ∧
      (("asc" : String).toLower = "desc" → List.Sorted logTsGE logs) ∧
      (("asc" : String).toLower ≠ "desc" → List.Sorted logTsLE logs) :=
  ⟨rfl,
    get_run_logs_validated_spec dbLogs "r1" (some 10) none none "asc" runRunning rfl
      (fun n h => by
        injection h with h2
        subst h2
        exact ⟨by decide, by decide⟩)⟩

theorem completeStatus_toRunStatus_ne (st : CompleteStatus) :
    st.toRunStatus ≠ RunStatus.RUNNING := by
  cases st <;> decide

/-- C3: the retry endpoint cannot create the claimed child run. On a FAILED
parent whose pipeline version exists and is APPROVED every precondition of
the claim holds, yet the call ends in the TypeError the PipelineRun
constructor raises (the declarative model in core.py maps neither
retry_of_run_id nor root_run_id), surfacing as a server error with the state
unchanged: afterwards no QUEUED run and no run with retry lineage to the
parent exists anywhere in the state. -/
theorem retry_raises_type_error :
    findRun dbFailed "r0" = some runFailed ∧
    runFailed.status = RunStatus.FAILED ∧
    findVersion dbFailed runFailed.pipeline_version_id = some pvA ∧
    pvA.status = PvStatus.APPROVED ∧
    retry_run dbFailed "r0" none "rNew" 7 = (RetryResult.typeError, dbFailed) ∧
    (∀ x ∈ (retry_run dbFailed "r0" none "rNew" 7).2.runs,
      x.retry_of_run_id ≠ some "r0") ∧
    (∀ x ∈ (retry_run dbFailed "r0" none "rNew" 7).2.runs,
      x.status ≠ RunStatus.QUEUED) := by
  decide

/-- C2: complete succeeds exactly when the run exists in status RUNNING; a
conflicting call leaves the state unchanged; and after a successful
complete, every further complete on the same run returns the 409 conflict
and leaves the state exactly as the first complete wrote it. -/
theorem complete_idempotent (db : Db) (rid : String) (st : CompleteStatus)
    (err : Option String) (now : Int) (hnd : RunIdsNodup db) :
    ((∃ r', (complete_run db rid st err now).1 = CompleteResult.ok r') ↔
      (∃ r, findRun db rid = some r ∧ r.status = RunStatus.RUNNING)) ∧
    ((complete_run db rid st err now).1 = CompleteResult.conflict →
      (complete_run db rid st err now).2 = db) ∧
    (∀ r, findRun db rid = some r → r.status = RunStatus.RUNNING →
      ∀ st2 err2 now2,
        complete_run (complete_run db rid st err now).2 rid st2 err2 now2 =
          (CompleteResult.conflict, (complete_run db rid st err now).2)) := by
  refine ⟨?_, ?_, ?_⟩
  · constructor
    · intro hok
      cases hfind : db.runs.find?
          (fun r => decide (r.id = rid) && decide (r.status = RunStatus.RUNNING)) with
      | none =>
        obtain ⟨r', hr'⟩ := hok
        unfold complete_run at hr'
        rw [hfind] at hr'
        cases hr'
      | some x =>
        have hx := List.find?_some hfind
        simp only [Bool.and_eq_true, decide_eq_true_eq] at hx
        have hmem := List.mem_of_find?_eq_some hfind
        refine ⟨x, ?_, hx.2⟩
        have := findRun_of_mem hnd hmem
        rwa [hx.1] at this
    · rintro ⟨r, hr, hrun⟩
      have hmem := findRun_mem hr
      have hid := findRun_id hr
      have hs : (db.runs.find?
          (fun r => decide (r.id = rid) && decide (r.status = RunStatus.RUNNING))).isSome := by
        rw [List.find?_isSome]
        exact ⟨r, hmem, by simp [hid, hrun]⟩
      obtain ⟨x, hx⟩ := Option.isSome_iff_exists.mp hs
      refine ⟨completeUpdate st err now x, ?_⟩
      unfold complete_run
      rw [hx]
  · intro hconf
    cases hfind : db.runs.find?
        (fun r => decide (r.id = rid) && decide (r.status = RunStatus.RUNNING)) with
    | none =>
      unfold complete_run
      rw [hfind]
    | some x =>
      unfold complete_run at hconf
      rw [hfind] at hconf
      cases hconf
  · intro r hr hrun st2 err2 now2
    have hmem := findRun_mem hr
    have hid := findRun_id hr
    have hfind : db.runs.find?
        (fun x => decide (x.id = rid) && decide (x.status = RunStatus.RUNNING)) = some r := by
      have hs : (db.runs.find?
          (fun x => decide (x.id = rid) && decide (x.status = RunStatus.RUNNING))).isSome := by
        rw [List.find?_isSome]
        exact ⟨r, hmem, by simp [hid, hrun]⟩
      obtain ⟨x, hx⟩ := Option.isSome_iff_exists.mp hs
      have hpx := List.find?_some hx
      simp only [Bool.and_eq_true, decide_eq_true_eq] at hpx
      have hxmem := List.mem_of_find?_eq_some hx
      rw [hx]
      exact congrArg some (run_id_inj hnd hxmem hmem (hpx.1.trans hid.symm))
    have hstep : complete_run db rid st err now =
        (CompleteResult.ok (completeUpdate st err now r),
          { db with runs := db.runs.map (fun x =>
              if x.id = rid ∧ x.status = RunStatus.RUNNING
              then completeUpdate st err now x else x) }) := by
      unfold complete_run
      rw [hfind]
    rw [hstep]
    have hnone : (db.runs.map (fun x =>
        if x.id = rid ∧ x.status = RunStatus.RUNNING
        then completeUpdate st err now x else x)).find?
          (fun x => decide (x.id = rid) && decide (x.status = RunStatus.RUNNING)) = none := by
      rw [List.find?_eq_none]
      intro y hy
      obtain ⟨x, hxmem, hxy⟩ := List.mem_map.mp hy
      by_cases hc : x.id = rid ∧ x.status = RunStatus.RUNNING
      · rw [if_pos hc] at hxy
        rw [← hxy]
        simp [completeUpdate, completeStatus_toRunStatus_ne st]
      · rw [if_neg hc] at hxy
        rw [← hxy]
        intro hcontra
        simp only [Bool.and_eq_true, decide_eq_true_eq] at hcontra
        exact hc hcontra
    show complete_run _ rid st2 err2 now2 = _
    unfold complete_run
    rw [hnone]

theorem complete_idempotent_witness :
    RunIdsNodup dbRunning ∧
    complete_run (complete_run dbRunning "r1" CompleteStatus.SUCCEEDED none 9).2 "r1"
        CompleteStatus.FAILED (some "late") 10 =
      (CompleteResult.conflict, (complete_run dbRunning "r1" CompleteStatus.SUCCEEDED none 9).2) :=
  ⟨by decide,
    (complete_idempotent dbRunning "r1" CompleteStatus.SUCCEEDED none 9 (by decide)).2.2
      runRunning rfl rfl CompleteStatus.FAILED (some "late") 10⟩

/-- C1: when at least one QUEUED run matches the optional tenant filter and
the catalog invariant holds that the matching runs reference existing
pipeline versions, claim picks a matching QUEUED run whose created_at is
minimal among the matching rows, applies exactly the claimed SET clause to
exactly that run, leaves every other run unchanged, and returns the updated
run with its pipeline version. -/
theorem claim_selects_oldest (db : Db) (w : String) (t : Option String) (now : Int)
    (hnd : RunIdsNodup db)
    (hne : ∃ r ∈ db.runs, r.status = RunStatus.QUEUED ∧ tenantMatches t r = true)
    (hpv : ∀ r ∈ db.runs, r.status = RunStatus.QUEUED → tenantMatches t r = true →
      (findVersion db r.pipeline_version_id).isSome = true) :
    ∃ r pv,
      claim_run db w t now =
        (ClaimResult.claimed (claimUpdate w now r) pv,
          updateRun db r.id (claimUpdate w now)) ∧
      r ∈ db.runs ∧ r.status = RunStatus.QUEUED ∧ tenantMatches t r = true ∧
      (∀ x ∈ db.runs, x.status = RunStatus.QUEUED → tenantMatches t x = true →
        r.created_at ≤ x.created_at) ∧
      findVersion db r.pipeline_version_id = some pv ∧
      (claimUpdate w now r).status = RunStatus.RUNNING ∧
      (claimUpdate w now r).started_at = some (r.started_at.getD now) ∧
      (claimUpdate w now r).claimed_at = some now ∧
      (claimUpdate w now r).claimed_by = some w ∧
      (claimUpdate w now r).heartbeat_at = some now ∧
      (claimUpdate w now r).updated_at = now ∧
      findRun (updateRun db r.id (claimUpdate w now)) r.id =
        some (claimUpdate w now r) ∧
      (∀ x ∈ db.runs, x.id ≠ r.id →
        findRun (updateRun db r.id (claimUpdate w now)) x.id = findRun db x.id) := by
  have hfid : ∀ x : Run, (claimUpdate w now x).id = x.id := fun _ => rfl
  obtain ⟨r0, hr0mem, hr0q, hr0m⟩ := hne
  have hr0filter : r0 ∈ queuedMatching db t := by
    rw [queuedMatching, List.mem_filter]
    exact ⟨hr0mem, by simp [hr0q, hr0m]⟩
  obtain ⟨r, hsel⟩ : ∃ r, oldestBy (queuedMatching db t) = some r := by
    cases h : oldestBy (queuedMatching db t) with
    | none =>
      rw [oldestBy_eq_none] at h
      rw [h] at hr0filter
      simp at hr0filter
    | some r => exact ⟨r, rfl⟩
  have hrfilter := oldestBy_mem hsel
  rw [queuedMatching, List.mem_filter] at hrfilter
  obtain ⟨hrmem, hrpred⟩ := hrfilter
  simp only [Bool.and_eq_true, decide_eq_true_eq] at hrpred
  obtain ⟨hrq, hrm⟩ := hrpred
  obtain ⟨pv, hpveq⟩ :=
    Option.isSome_iff_exists.mp (hpv r hrmem hrq hrm)
  refine ⟨r, pv, ?_, hrmem, hrq, hrm, ?_, hpveq, rfl, rfl, rfl, rfl, rfl, rfl, ?_, ?_⟩
  · unfold claim_run
    rw [hsel]
    dsimp only
    rw [hpveq]
  · intro x hx hxq hxm
    refine oldestBy_le hsel x ?_
    rw [queuedMatching, List.mem_filter]
    exact ⟨hx, by simp [hxq, hxm]⟩
  · rw [findRun_updateRun db r.id r.id _ hfid, findRun_of_mem hnd hrmem]
    simp
  · intro x hx hxne
    rw [findRun_updateRun db r.id x.id _ hfid]
    cases h : findRun db x.id with
    | none => rfl
    | some y =>
      have hyid : y.id = x.id := findRun_id h
      simp [hyid, hxne]

theorem claim_selects_oldest_witness :
    RunIdsNodup dbQueue ∧
    (∃ r ∈ dbQueue.runs, r.status = RunStatus.QUEUED ∧ tenantMatches none r = true) ∧
    (∃ r pv,
      claim_run dbQueue "w1" none 100 =
        (ClaimResult.claimed (claimUpdate "w1" 100 r) pv,
          updateRun dbQueue r.id (claimUpdate "w1" 100)) ∧
      r ∈ dbQueue.runs ∧ r.status = RunStatus.QUEUED ∧ tenantMatches none r = true ∧
      (∀ x ∈ dbQueue.runs, x.status = RunStatus.QUEUED → tenantMatches none x = true →
        r.created_at ≤ x.created_at) ∧
      findVersion dbQueue r.pipeline_version_id = some pv ∧
      (claimUpdate "w1" 100 r).status = RunStatus.RUNNING ∧
      (claimUpdate "w1" 100 r).started_at = some (r.started_at.getD 100) ∧
      (claimUpdate "w1" 100 r).claimed_at = some 100 ∧
      (claimUpdate "w1" 100 r).claimed_by = some "w1" ∧
      (claimUpdate "w1" 100 r).heartbeat_at = some 100 ∧
      (claimUpdate "w1" 100 r).updated_at = 100 ∧
      findRun (updateRun dbQueue r.id (claimUpdate "w1" 100)) r.id =
        some (claimUpdate "w1" 100 r) ∧
      (∀ x ∈ dbQueue.runs, x.id ≠ r.id →
        findRun (updateRun dbQueue r.id (claimUpdate "w1" 100)) x.id =
          findRun dbQueue x.id)) :=
  ⟨by decide, by decide,
    claim_selects_oldest dbQueue "w1" none 100 (by decide) (by decide) (by decide)⟩

theorem findRun_appendLog (db : Db) (e : LogEntry) (j : String) :
    findRun (appendLog db e) j = findRun db j := rfl

theorem reapFold_logs (N now : Int) :
    ∀ (sel : List Run) (acc : Db),
      (reapFold N now sel acc).logs = acc.logs ++ sel.map (staleLog N now) := by
  intro sel
  induction sel with
  | nil => intro acc; simp [reapFold]
  | cons s rest ih =>
    intro acc
    simp only [reapFold, List.foldl_cons] at *
    rw [ih]
    simp [appendLog, updateRun, List.append_assoc]

theorem reapFold_versions (N now : Int) :
    ∀ (sel : List Run) (acc : Db),
      (reapFold N now sel acc).versions = acc.versions := by
  intro sel
  induction sel with
  | nil => intro acc; simp [reapFold]
  | cons s rest ih =>
    intro acc
    simp only [reapFold, List.foldl_cons] at *
    rw [ih]
    rfl

theorem reapFold_findRun (N now : Int) :
    ∀ (sel : List Run) (acc : Db),
      (sel.map Run.id).Nodup → (∀ s ∈ sel, findRun acc s.id = some s) →
      (∀ s ∈ sel, findRun (reapFold N now sel acc) s.id = some (reapUpdate N now s)) ∧
      (∀ j, j ∉ sel.map Run.id → findRun (reapFold N now sel acc) j = findRun acc j) := by
  intro sel
  induction sel with
  | nil =>
    intro acc _ _
    exact ⟨by simp, fun j _ => rfl⟩
  | cons s rest ih =>
    intro acc hnd hacc
    have hfid : ∀ x : Run, (reapUpdate N now x).id = x.id := fun _ => rfl
    simp only [List.map_cons, List.nodup_cons] at hnd
    obtain ⟨hsid, hrest⟩ := hnd
    have hstep : reapFold N now (s :: rest) acc =
        reapFold N now rest
          (appendLog (updateRun acc s.id (reapUpdate N now)) (staleLog N now s)) := by
      simp [reapFold, List.foldl_cons]
    have hacc1 : ∀ t ∈ rest,
        findRun (appendLog (updateRun acc s.id (reapUpdate N now)) (staleLog N now s)) t.id =
          some t := by
      intro t ht
      have htne : t.id ≠ s.id := by
        intro h
        exact hsid (h ▸ List.mem_map_of_mem Run.id ht)
      rw [findRun_appendLog, findRun_updateRun acc s.id t.id _ hfid, hacc t (List.mem_cons_of_mem s ht)]
      simp [htne]
    obtain ⟨ih1, ih2⟩ := ih _ hrest hacc1
    constructor
    · intro x hx
      rcases List.mem_cons.mp hx with hx | hx
      · subst hx
        rw [hstep, ih2 x.id hsid, findRun_appendLog,
          findRun_updateRun acc x.id x.id _ hfid, hacc x (List.mem_cons_self x rest)]
        simp
      · rw [hstep]
        exact ih1 x hx
    · intro j hj
      simp only [List.map_cons, List.mem_cons, not_or] at hj
      obtain ⟨hj1, hj2⟩ := hj
      rw [hstep, ih2 j hj2, findRun_appendLog, findRun_updateRun acc s.id j _ hfid]
      cases h : findRun acc j with
      | none => rfl
      | some y =>
        have : y.id = j := findRun_id h
        simp [this, hj1]

theorem reapSelect_mem {db : Db} {N : Int} {L : Nat} {now : Int} {r : Run}
    (hr : r ∈ reapSelect db N L now) :
    r ∈ db.runs ∧ isStale N now r = true := by
  simp only [reapSelect] at hr
  have h1 := List.mem_of_mem_take hr
  rw [List.mem_insertionSort] at h1
  exact ⟨(List.mem_filter.mp h1).1, (List.mem_filter.mp h1).2⟩

theorem reapSelect_nodup {db : Db} (hnd : RunIdsNodup db) (N : Int) (L : Nat) (now : Int) :
    ((reapSelect db N L now).map Run.id).Nodup := by
  have h1 : ((db.runs.filter (isStale N now)).map Run.id).Nodup :=
    List.Nodup.sublist (List.Sublist.map Run.id (List.filter_sublist _)) hnd
  have h2 : ((List.insertionSort runCreatedLE (db.runs.filter (isStale N now))).map
      Run.id).Nodup :=
    ((List.perm_insertionSort runCreatedLE _).map Run.id).nodup_iff.mpr h1
  simp only [reapSelect]
  rw [List.map_take]
  exact List.Nodup.sublist (List.take_sublist _ _) h2

theorem reapSelect_sorted (db : Db) (N : Int) (L : Nat) (now : Int) :
    List.Sorted runCreatedLE (reapSelect db N L now) :=
  List.Pairwise.sublist (List.take_sublist _ _) (List.sorted_insertionSort _ _)

/-- C5: reap-stale clamps its inputs (stale threshold at least one second,
limit between 1 and 500), selects at most limit stale RUNNING runs in
created_at ascending order, fails each selected run with finished_at and
updated_at set to NOW and the exact stale error message, appends exactly one
WARN log entry per reaped run from source control-plane with the claimed
message and meta, and touches nothing else. -/
theorem reap_stale_spec (db : Db) (stale limit now : Int) (hnd : RunIdsNodup db) :
    (1 : Int) ≤ max 1 stale ∧
    (1 : Int) ≤ max 1 (min limit 500) ∧ max 1 (min limit 500) ≤ 500 ∧
    (reap_stale db stale limit now).1 =
      ((reapSelect db (max 1 stale) (max 1 (min limit 500)).toNat now).length,
        (reapSelect db (max 1 stale) (max 1 (min limit 500)).toNat now).map Run.id) ∧
    (reapSelect db (max 1 stale) (max 1 (min limit 500)).toNat now).length ≤
      (max 1 (min limit 500)).toNat ∧
    List.Sorted runCreatedLE
      (reapSelect db (max 1 stale) (max 1 (min limit 500)).toNat now) ∧
    (∀ r ∈ reapSelect db (max 1 stale) (max 1 (min limit 500)).toNat now,
      r ∈ db.runs ∧ isStale (max 1 stale) now r = true) ∧
    (∀ r ∈ reapSelect db (max 1 stale) (max 1 (min limit 500)).toNat now,
      findRun (reap_stale db stale limit now).2 r.id =
        some (reapUpdate (max 1 stale) now r) ∧
      (reapUpdate (max 1 stale) now r).status = RunStatus.FAILED ∧
      (reapUpdate (max 1 stale) now r).finished_at = some now ∧
      (reapUpdate (max 1 stale) now r).updated_at = now ∧
      (reapUpdate (max 1 stale) now r).error_message =
        some ("Stale: no heartbeat for " ++ toString (max 1 stale) ++ "s")) ∧
    (reap_stale db stale limit now).2.logs =
      db.logs ++ (reapSelect db (max 1 stale) (max 1 (min limit 500)).toNat now).map
        (staleLog (max 1 stale) now) ∧
    (∀ r ∈ reapSelect db (max 1 stale) (max 1 (min limit 500)).toNat now,
      (staleLog (max 1 stale) now r).run_id = r.id ∧
      (staleLog (max 1 stale) now r).level = "WARN" ∧
      (staleLog (max 1 stale) now r).source = some "control-plane" ∧
      (staleLog (max 1 stale) now r).message = "Run marked stale by reaper" ∧
      (staleLog (max 1 stale) now r).meta =
        some ([("stale_after_seconds", toString (max 1 stale))] ++
          (match r.heartbeat_at with
           | some hb => [("last_heartbeat_at", toString hb)]
           | none => []))) ∧
    (∀ j, j ∉ (reapSelect db (max 1 stale) (max 1 (min limit 500)).toNat now).map Run.id →
      findRun (reap_stale db stale limit now).2 j = findRun db j) := by
  have hsel : ∀ s ∈ reapSelect db (max 1 stale) (max 1 (min limit 500)).toNat now,
      findRun db s.id = some s :=
    fun s hs => findRun_of_mem hnd (reapSelect_mem hs).1
  obtain ⟨hfold1, hfold2⟩ :=
    reapFold_findRun (max 1 stale) now
      (reapSelect db (max 1 stale) (max 1 (min limit 500)).toNat now) db
      (reapSelect_nodup hnd _ _ _) hsel
  have hsnd : (reap_stale db stale limit now).2 =
      reapFold (max 1 stale) now
        (reapSelect db (max 1 stale) (max 1 (min limit 500)).toNat now) db := rfl
  refine ⟨le_max_left 1 stale, le_max_left 1 _, ?_, rfl, ?_, reapSelect_sorted db _ _ now,
    fun r hr => reapSelect_mem hr, ?_, ?_, ?_, ?_⟩
  · rcases le_total limit 500 with h | h
    · rw [max_le_iff]
      exact ⟨by decide, min_le_right limit 500⟩
    · rw [max_le_iff]
      exact ⟨by decide, min_le_right limit 500⟩
  · simp only [reapSelect]
    exact List.length_take_le _ _
  · intro r hr
    exact ⟨hsnd ▸ hfold1 r hr, rfl, rfl, rfl, rfl⟩
  · rw [hsnd, reapFold_logs]
  · intro r _
    exact ⟨rfl, rfl, rfl, rfl, rfl⟩
  · intro j hj
    exact hsnd ▸ hfold2 j hj

theorem reap_stale_spec_witness :
    RunIdsNodup dbStale ∧
    ((1 : Int) ≤ max 1 300 ∧
    (1 : Int) ≤ max 1 (min (10 : Int) 500) ∧ max 1 (min (10 : Int) 500) ≤ 500 ∧
    (reap_stale dbStale 300 10 400).1 =
      ((reapSelect dbStale (max 1 300) (max 1 (min (10 : Int) 500)).toNat 400).length,
        (reapSelect dbStale (max 1 300) (max 1 (min (10 : Int) 500)).toNat 400).map Run.id) ∧
    (reapSelect dbStale (max 1 300) (max 1 (min (10 : Int) 500)).toNat 400).length ≤
      (max 1 (min (10 : Int) 500)).toNat ∧
    List.Sorted runCreatedLE
      (reapSelect dbStale (max 1 300) (max 1 (min (10 : Int) 500)).toNat 400) ∧
    (∀ r ∈ reapSelect dbStale (max 1 300) (max 1 (min (10 : Int) 500)).toNat 400,
      r ∈ dbStale.runs ∧ isStale (max 1 300) 400 r = true) ∧
    (∀ r ∈ reapSelect dbStale (max 1 300) (max 1 (min (10 : Int) 500)).toNat 400,
      findRun (reap_stale dbStale 300 10 400).2 r.id =
        some (reapUpdate (max 1 300) 400 r) ∧
      (reapUpdate (max 1 300) 400 r).status = RunStatus.FAILED ∧
      (reapUpdate (max 1 300) 400 r).finished_at = some 400 ∧
      (reapUpdate (max 1 300) 400 r).updated_at = 400 ∧
      (reapUpdate (max 1 300) 400 r).error_message =
        some ("Stale: no heartbeat for " ++ toString (max (1 : Int) 300) ++ "s")) ∧
    (reap_stale dbStale 300 10 400).2.logs =
      dbStale.logs ++ (reapSelect dbStale (max 1 300) (max 1 (min (10 : Int) 500)).toNat 400).map
        (staleLog (max 1 300) 400) ∧
    (∀ r ∈ reapSelect dbStale (max 1 300) (max 1 (min (10 : Int) 500)).toNat 400,
      (staleLog (max 1 300) 400 r).run_id = r.id ∧
      (staleLog (max 1 300) 400 r).level = "WARN" ∧
      (staleLog (max 1 300) 400 r).source = some "control-plane" ∧
      (staleLog (max 1 300) 400 r).message = "Run marked stale by reaper" ∧
      (staleLog (max 1 300) 400 r).meta =
        some ([("stale_after_seconds", toString (max (1 : Int) 300))] ++
          (match r.heartbeat_at with
           | some hb => [("last_heartbeat_at", toString hb)]
           | none => []))) ∧
    (∀ j, j ∉ (reapSelect dbStale (max 1 300) (max 1 (min (10 : Int) 500)).toNat 400).map Run.id →
      findRun (reap_stale dbStale 300 10 400).2 j = findRun dbStale j)) :=
  ⟨by decide, reap_stale_spec dbStale 300 10 400 (by decide)⟩

theorem isStale_running {N now : Int} {r : Run} (h : isStale N now r = true) :
    r.status = RunStatus.RUNNING := by
  unfold isStale at h
  rw [Bool.and_eq_true] at h
  exact of_decide_eq_true h.1

theorem terminalFinished_map (db : Db) (g : Run → Run) (db2 : Db)
    (h2 : db2.runs = db.runs.map g) (hfin : TerminalFinished db)
    (hg : ∀ x ∈ db.runs, (g x).status.isTerminal = true → (g x).finished_at ≠ none) :
    TerminalFinished db2 := by
  intro x hx ht
  rw [h2] at hx
  obtain ⟨y, hy, rfl⟩ := List.mem_map.mp hx
  exact hg y hy ht

theorem frozen_map (db : Db) (g : Run → Run) (db2 : Db) (hnd : RunIdsNodup db)
    (h2 : db2.runs = db.runs.map g)
    (hgid : ∀ x, (g x).id = x.id)
    (hg : ∀ x ∈ db.runs, x.status.isTerminal = true → g x = x) :
    ∀ r ∈ db.runs, r.status.isTerminal = true →
      ∀ x ∈ db2.runs, x.id = r.id → x = r := by
  intro r hr hrt x hx hxid
  rw [h2] at hx
  obtain ⟨y, hy, rfl⟩ := List.mem_map.mp hx
  have hyid : y.id = r.id := by rw [← hgid y]; exact hxid
  have heq := run_id_inj hnd hy hr hyid
  rw [heq]
  exact hg r hr hrt

theorem frozen_id (db db2 : Db) (hnd : RunIdsNodup db) (h2 : db2.runs = db.runs) :
    ∀ r ∈ db.runs, ∀ x ∈ db2.runs, x.id = r.id → x = r := by
  intro r hr x hx hxid
  rw [h2] at hx
  exact run_id_inj hnd hx hr hxid

theorem frozen_append (db db2 : Db) (hnd : RunIdsNodup db) (newRun : Run)
    (h2 : db2.runs = db.runs ++ [newRun]) (hfresh : newRun.id ∉ db.runs.map Run.id) :
    ∀ r ∈ db.runs, ∀ x ∈ db2.runs, x.id = r.id → x = r := by
  intro r hr x hx hxid
  rw [h2] at hx
  rcases List.mem_append.mp hx with hx | hx
  · exact run_id_inj hnd hx hr hxid
  · rw [List.mem_singleton] at hx
    subst hx
    exfalso
    apply hfresh
    rw [hxid]
    exact List.mem_map_of_mem Run.id hr

theorem terminalFinished_append (db db2 : Db) (newRun : Run)
    (h2 : db2.runs = db.runs ++ [newRun]) (hq : newRun.status = RunStatus.QUEUED)
    (hfin : TerminalFinished db) : TerminalFinished db2 := by
  intro x hx ht
  rw [h2] at hx
  rcases List.mem_append.mp hx with hx | hx
  · exact hfin x hx ht
  · rw [List.mem_singleton] at hx
    subst hx
    rw [hq] at ht
    exact absurd ht (by decide)

theorem claim_run_cases (db : Db) (w : String) (t : Option String) (now : Int) :
    (claim_run db w t now).2 = db ∨
    ∃ r, r ∈ db.runs ∧ r.status = RunStatus.QUEUED ∧
      (claim_run db w t now).2 = updateRun db r.id (claimUpdate w now) := by
  unfold claim_run
  cases hsel : oldestBy (queuedMatching db t) with
  | none => left; rfl
  | some r =>
    dsimp only
    cases hpv : findVersion db r.pipeline_version_id with
    | none => left; rfl
    | some pv =>
      right
      have hmem := oldestBy_mem hsel
      rw [queuedMatching, List.mem_filter] at hmem
      obtain ⟨hin, hpred⟩ := hmem
      simp only [Bool.and_eq_true, decide_eq_true_eq] at hpred
      exact ⟨r, hin, hpred.1, rfl⟩

theorem heartbeat_run_cases (db : Db) (rid w : String) (now : Int) :
    (heartbeat_run db rid w now).2 = db ∨
    (heartbeat_run db rid w now).2 = { db with runs := db.runs.map (fun r =>
      if r.id = rid ∧ r.status = RunStatus.RUNNING ∧ r.claimed_by = some w
      then { r with heartbeat_at := some now, updated_at := now } else r) } := by
  unfold heartbeat_run
  cases h : findRun db rid with
  | none => left; rfl
  | some run =>
    dsimp only
    by_cases h1 : run.status ≠ RunStatus.RUNNING
    · rw [if_pos h1]; left; rfl
    · rw [if_neg h1]
      by_cases h2 : run.claimed_by ≠ some w
      · rw [if_pos h2]; left; rfl
      · rw [if_neg h2]; right; rfl

theorem complete_run_cases (db : Db) (rid : String) (st : CompleteStatus)
    (err : Option String) (now : Int) :
    (complete_run db rid st err now).2 = db ∨
    (complete_run db rid st err now).2 = { db with runs := db.runs.map (fun x =>
      if x.id = rid ∧ x.status = RunStatus.RUNNING
      then completeUpdate st err now x else x) } := by
  unfold complete_run
  cases h : db.runs.find?
      (fun r => decide (r.id = rid) && decide (r.status = RunStatus.RUNNING)) with
  | none => left; rfl
  | some r => right; rfl

theorem cancel_run_cases (db : Db) (rid : String) (now : Int) :
    (cancel_run db rid now).2.runs = db.runs ∨
    (cancel_run db rid now).2.runs = db.runs.map (fun x =>
      if x.id = rid ∧ (x.status = RunStatus.QUEUED ∨ x.status = RunStatus.RUNNING)
      then cancelUpdate now x else x) := by
  unfold cancel_run
  cases h : findRun db rid with
  | none => left; rfl
  | some run =>
    dsimp only
    by_cases h1 : run.status ≠ RunStatus.QUEUED ∧ run.status ≠ RunStatus.RUNNING
    · rw [if_pos h1]; left; rfl
    · rw [if_neg h1]; right; rfl

theorem retry_insert_txn_cases (db : Db) (rid : String) (o : Option JsonObj)
    (nid : String) (now : Int) :
    (retry_insert_txn db rid o nid now).2 = db ∨
    ∃ newRun : Run, newRun.id = nid ∧ newRun.status = RunStatus.QUEUED ∧
      (retry_insert_txn db rid o nid now).2 = { db with runs := db.runs ++ [newRun] } := by
  unfold retry_insert_txn
  cases h : findRun db rid with
  | none => left; rfl
  | some run =>
    dsimp only
    by_cases h1 : run.status ≠ RunStatus.FAILED ∧ run.status ≠ RunStatus.CANCELLED
    · rw [if_pos h1]; left; rfl
    · rw [if_neg h1]
      cases h2 : findVersion db run.pipeline_version_id with
      | none => left; rfl
      | some pv =>
        dsimp only
        by_cases h3 : pv.status ≠ PvStatus.APPROVED
        · rw [if_pos h3]; left; rfl
        · rw [if_neg h3]
          left
          rfl

theorem retry_run_runs (db : Db) (rid : String) (o : Option JsonObj)
    (nid : String) (now : Int) :
    (retry_run db rid o nid now).2.runs = (retry_insert_txn db rid o nid now).2.runs := by
  unfold retry_run
  cases h : retry_insert_txn db rid o nid now with
  | mk res db2 =>
    cases res <;> simp [retry_log_txn, appendLog]

theorem reapFold_terminalFinished (N now : Int) :
    ∀ (sel : List Run) (acc : Db), TerminalFinished acc →
      TerminalFinished (reapFold N now sel acc) := by
  intro sel
  induction sel with
  | nil =>
    intro acc h
    simpa [reapFold] using h
  | cons s rest ih =>
    intro acc h
    have hstep : reapFold N now (s :: rest) acc =
        reapFold N now rest
          (appendLog (updateRun acc s.id (reapUpdate N now)) (staleLog N now s)) := by
      simp [reapFold, List.foldl_cons]
    rw [hstep]
    apply ih
    intro x hx ht
    obtain ⟨y, hy, rfl⟩ := List.mem_map.mp hx
    by_cases c : y.id = s.id
    · rw [if_pos c]
      simp [reapUpdate]
    · rw [if_neg c] at ht ⊢
      exact h y hy ht

theorem reapFold_frozen (N now : Int) (rid : String) (r : Run) :
    ∀ (sel : List Run) (acc : Db),
      (∀ s ∈ sel, s.id ≠ rid) →
      (∀ x ∈ acc.runs, x.id = rid → x = r) →
      ∀ x ∈ (reapFold N now sel acc).runs, x.id = rid → x = r := by
  intro sel
  induction sel with
  | nil =>
    intro acc _ hbase
    simpa [reapFold] using hbase
  | cons s rest ih =>
    intro acc hne hbase
    have hstep : reapFold N now (s :: rest) acc =
        reapFold N now rest
          (appendLog (updateRun acc s.id (reapUpdate N now)) (staleLog N now s)) := by
      simp [reapFold, List.foldl_cons]
    rw [hstep]
    apply ih
    · intro x hx
      exact hne x (List.mem_cons_of_mem s hx)
    · intro x hx hxid
      obtain ⟨y, hy, rfl⟩ := List.mem_map.mp hx
      by_cases c : y.id = s.id
      · rw [if_pos c] at hxid ⊢
        exfalso
        exact hne s (List.mem_cons_self s rest) (by rw [← hxid]; exact c.symm ▸ rfl)
      · rw [if_neg c] at hxid ⊢
        exact hbase y hy hxid

/-- C4: terminal states are absorbing. Every interface operation preserves
the invariant that a terminal run carries a non-null finished_at, and no
operation of the interface changes any field of a run that is already
SUCCEEDED, FAILED or CANCELLED; in particular its status never leaves the
terminal set. Hypotheses: run ids are pairwise distinct (primary key) and
the uuid generated for a retry child is fresh. -/
theorem terminal_absorbing (db : Db) (op : Op) (hnd : RunIdsNodup db)
    (hwf : op.wf db) :
    (TerminalFinished db → TerminalFinished (applyOp op db)) ∧
    (∀ r ∈ db.runs, r.status.isTerminal = true →
      ∀ x ∈ (applyOp op db).runs, x.id = r.id → x = r) := by
  cases op with
  | claim w t n =>
    simp only [applyOp]
    rcases claim_run_cases db w t n with h | ⟨r0, hr0mem, hr0q, h⟩
    · rw [h]
      exact ⟨fun hf => hf, fun r hr hrt x hx hxid => run_id_inj hnd hx hr hxid⟩
    · rw [h]
      constructor
      · intro hfin
        refine terminalFinished_map db _ _ rfl hfin ?_
        intro x hx
        by_cases c : x.id = r0.id
        · rw [if_pos c]
          intro ht
          exact absurd ht (by simp [claimUpdate, RunStatus.isTerminal])
        · rw [if_neg c]
          exact fun ht => hfin x hx ht
      · refine frozen_map db _ _ hnd rfl ?_ ?_
        · intro x
          by_cases c : x.id = r0.id <;> simp [c, claimUpdate]
        · intro x hx ht
          by_cases c : x.id = r0.id
          · exfalso
            have := run_id_inj hnd hx hr0mem c
            rw [this, hr0q] at ht
            exact absurd ht (by decide)
          · rw [if_neg c]
  | heartbeat rid w n =>
    simp only [applyOp]
    rcases heartbeat_run_cases db rid w n with h | h
    · rw [h]
      exact ⟨fun hf => hf, fun r hr hrt x hx hxid => run_id_inj hnd hx hr hxid⟩
    · rw [h]
      constructor
      · intro hfin
        refine terminalFinished_map db _ _ rfl hfin ?_
        intro x hx
        by_cases c : x.id = rid ∧ x.status = RunStatus.RUNNING ∧ x.claimed_by = some w
        · rw [if_pos c]
          intro ht
          exact absurd ht (by simp [c.2.1, RunStatus.isTerminal])
        · rw [if_neg c]
          exact fun ht => hfin x hx ht
      · refine frozen_map db _ _ hnd rfl ?_ ?_
        · intro x
          by_cases c : x.id = rid ∧ x.status = RunStatus.RUNNING ∧ x.claimed_by = some w <;>
            simp [c]
        · intro x hx ht
          by_cases c : x.id = rid ∧ x.status = RunStatus.RUNNING ∧ x.claimed_by = some w
          · exfalso
            rw [c.2.1] at ht
            exact absurd ht (by decide)
          · rw [if_neg c]
  | complete rid st err n =>
    simp only [applyOp]
    rcases complete_run_cases db rid st err n with h | h
    · rw [h]
      exact ⟨fun hf => hf, fun r hr hrt x hx hxid => run_id_inj hnd hx hr hxid⟩
    · rw [h]
      constructor
      · intro hfin
        refine terminalFinished_map db _ _ rfl hfin ?_
        intro x hx
        by_cases c : x.id = rid ∧ x.status = RunStatus.RUNNING
        · rw [if_pos c]
          intro _
          simp [completeUpdate]
        · rw [if_neg c]
          exact fun ht => hfin x hx ht
      · refine frozen_map db _ _ hnd rfl ?_ ?_
        · intro x
          by_cases c : x.id = rid ∧ x.status = RunStatus.RUNNING <;> simp [c, completeUpdate]
        · intro x hx ht
          by_cases c : x.id = rid ∧ x.status = RunStatus.RUNNING
          · exfalso
            rw [c.2] at ht
            exact absurd ht (by decide)
          · rw [if_neg c]
  | cancel rid n =>
    have hr2 := cancel_run_cases db rid n
    constructor
    · intro hfin
      rcases hr2 with h | h
      · intro x hx ht
        rw [show (applyOp (Op.cancel rid n) db).runs = (cancel_run db rid n).2.runs from rfl,
          h] at hx
        exact hfin x hx ht
      · refine terminalFinished_map db _ _ h hfin ?_
        intro x hx
        by_cases c : x.id = rid ∧ (x.status = RunStatus.QUEUED ∨ x.status = RunStatus.RUNNING)
        · rw [if_pos c]
          intro _
          simp [cancelUpdate]
        · rw [if_neg c]
          exact fun ht => hfin x hx ht
    · intro r hr hrt
      rcases hr2 with h | h
      · intro x hx hxid
        rw [show (applyOp (Op.cancel rid n) db).runs = (cancel_run db rid n).2.runs from rfl,
          h] at hx
        exact run_id_inj hnd hx hr hxid
      · refine frozen_map db _ _ hnd h ?_ ?_ r hr hrt
        · intro x
          by_cases c : x.id = rid ∧ (x.status = RunStatus.QUEUED ∨ x.status = RunStatus.RUNNING) <;>
            simp [c, cancelUpdate]
        · intro x hx ht
          by_cases c : x.id = rid ∧ (x.status = RunStatus.QUEUED ∨ x.status = RunStatus.RUNNING)
          · exfalso
            rcases c.2 with hs | hs <;> rw [hs] at ht <;> exact absurd ht (by decide)
          · rw [if_neg c]
  | retry rid o nid n =>
    have hfresh : nid ∉ db.runs.map Run.id := hwf
    have hruns := retry_run_runs db rid o nid n
    rcases retry_insert_txn_cases db rid o nid n with h | ⟨newRun, hid, hq, h⟩
    · constructor
      · intro hfin x hx ht
        rw [show (applyOp (Op.retry rid o nid n) db).runs = (retry_run db rid o nid n).2.runs
          from rfl, hruns, h] at hx
        exact hfin x hx ht
      · intro r hr hrt x hx hxid
        rw [show (applyOp (Op.retry rid o nid n) db).runs = (retry_run db rid o nid n).2.runs
          from rfl, hruns, h] at hx
        exact run_id_inj hnd hx hr hxid
    · have hruns2 : (applyOp (Op.retry rid o nid n) db).runs = db.runs ++ [newRun] := by
        rw [show (applyOp (Op.retry rid o nid n) db).runs = (retry_run db rid o nid n).2.runs
          from rfl, hruns, h]
      constructor
      · intro hfin x hx ht
        rw [hruns2] at hx
        rcases List.mem_append.mp hx with hx | hx
        · exact hfin x hx ht
        · rw [List.mem_singleton] at hx
          subst hx
          rw [hq] at ht
          exact absurd ht (by decide)
      · intro r hr hrt x hx hxid
        rw [hruns2] at hx
        rcases List.mem_append.mp hx with hx | hx
        · exact run_id_inj hnd hx hr hxid
        · rw [List.mem_singleton] at hx
          subst hx
          exfalso
          apply hfresh
          rw [← hid, hxid]
          exact List.mem_map_of_mem Run.id hr
  | reapStale s l n =>
    have hshow : applyOp (Op.reapStale s l n) db =
        reapFold (max 1 s) n (reapSelect db (max 1 s) (max 1 (min l 500)).toNat n) db := rfl
    constructor
    · intro hfin
      rw [hshow]
      exact reapFold_terminalFinished _ _ _ db hfin
    · intro r hr hrt x hx hxid
      rw [hshow] at hx
      refine reapFold_frozen (max 1 s) n r.id r _ db ?_ ?_ x hx hxid
      · intro s0 hs0 hs0id
        obtain ⟨hs0mem, hs0stale⟩ := reapSelect_mem hs0
        have := run_id_inj hnd hs0mem hr hs0id
        rw [← this, isStale_running hs0stale] at hrt
        exact absurd hrt (by decide)
      · intro y hy hyid
        exact run_id_inj hnd hy hr hyid

theorem terminal_absorbing_witness :
    RunIdsNodup dbFailed ∧ Op.wf (Op.heartbeat "r0" "w1" 9) dbFailed ∧
    ((TerminalFinished dbFailed →
        TerminalFinished (applyOp (Op.heartbeat "r0" "w1" 9) dbFailed)) ∧
      (∀ r ∈ dbFailed.runs, r.status.isTerminal = true →
        ∀ x ∈ (applyOp (Op.heartbeat "r0" "w1" 9) dbFailed).runs, x.id = r.id → x = r)) :=
  ⟨by decide, trivial,
    terminal_absorbing dbFailed (Op.heartbeat "r0" "w1" 9) (by decide) trivial⟩

theorem queuedMatching_none (db : Db) :
    queuedMatching db none =
      db.runs.filter (fun r => decide (r.status = RunStatus.QUEUED)) := by
  unfold queuedMatching
  apply List.filter_congr
  intro x _
  simp [tenantMatches]

theorem claim_run_empty (db : Db) (w : String) (now : Int)
    (h : queuedCount db = 0) :
    claim_run db w none now = (ClaimResult.notClaimed, db) := by
  have hfil : db.runs.filter (fun r => decide (r.status = RunStatus.QUEUED)) = [] :=
    List.length_eq_zero.mp h
  have hmatch : queuedMatching db none = [] := by rw [queuedMatching_none, hfil]
  unfold claim_run
  rw [hmatch]
  rfl

theorem claim_run_nonempty (db : Db) (w : String) (now : Int)
    (hnd : RunIdsNodup db) (hpv : PvClosed db) (h : 0 < queuedCount db) :
    ∃ r pv, r ∈ db.runs ∧ r.status = RunStatus.QUEUED ∧
      findVersion db r.pipeline_version_id = some pv ∧
      claim_run db w none now =
        (ClaimResult.claimed (claimUpdate w now r) pv,
          updateRun db r.id (claimUpdate w now)) := by
  have hne : queuedMatching db none ≠ [] := by
    intro hh
    rw [queuedMatching_none] at hh
    unfold queuedCount at h
    rw [hh] at h
    simp at h
  obtain ⟨r, hsel⟩ : ∃ r, oldestBy (queuedMatching db none) = some r := by
    cases hx : oldestBy (queuedMatching db none) with
    | none => exact absurd (oldestBy_eq_none.mp hx) hne
    | some r => exact ⟨r, rfl⟩
  have hmem := oldestBy_mem hsel
  rw [queuedMatching, List.mem_filter] at hmem
  obtain ⟨hin, hpred⟩ := hmem
  simp only [Bool.and_eq_true, decide_eq_true_eq] at hpred
  obtain ⟨pvv, hpveq⟩ := Option.isSome_iff_exists.mp (hpv r hin hpred.1)
  refine ⟨r, pvv, hin, hpred.1, hpveq, ?_⟩
  unfold claim_run
  rw [hsel]
  dsimp only
  rw [hpveq]

theorem countQueued_update_list (rid : String) (f : Run → Run)
    (hf : ∀ x, (f x).status ≠ RunStatus.QUEUED) :
    ∀ (l : List Run), (l.map Run.id).Nodup →
      ∀ r ∈ l, r.id = rid → r.status = RunStatus.QUEUED →
      (List.filter (fun x => decide (x.status = RunStatus.QUEUED))
        (l.map (fun x => if x.id = rid then f x else x))).length + 1 =
      (List.filter (fun x => decide (x.status = RunStatus.QUEUED)) l).length := by
  intro l
  induction l with
  | nil =>
    intro _ r hr
    cases hr
  | cons a as ih =>
    intro hnd r hr hrid hrq
    simp only [List.map_cons, List.nodup_cons] at hnd
    obtain ⟨ha, hnd2⟩ := hnd
    rcases List.mem_cons.mp hr with h | h
    · subst h
      rw [List.map_cons, if_pos hrid]
      have hid : ∀ x ∈ as, (if x.id = rid then f x else x) = x := by
        intro x hx
        refine if_neg ?_
        intro hxid
        exact ha (by rw [hrid, ← hxid]; exact List.mem_map_of_mem Run.id hx)
      have hmapid : as.map (fun x => if x.id = rid then f x else x) = as := by
        have := List.map_congr_left hid
        simpa using this
      rw [hmapid, List.filter_cons, List.filter_cons]
      have h1 : decide ((f r).status = RunStatus.QUEUED) = false := by
        simp [hf r]
      have h2 : decide (r.status = RunStatus.QUEUED) = true := by simp [hrq]
      rw [h1, h2]
      simp
    · have haid : a.id ≠ rid := by
        intro hh
        apply ha
        rw [hh, ← hrid]
        exact List.mem_map_of_mem Run.id h
      rw [List.map_cons, if_neg haid, List.filter_cons, List.filter_cons]
      have hih := ih hnd2 r h hrid hrq
      by_cases hq2 : a.status = RunStatus.QUEUED
      · have hd : decide (a.status = RunStatus.QUEUED) = true := by simp [hq2]
        rw [hd, if_pos rfl, if_pos rfl]
        simp only [List.length_cons]
        omega
      · have hd : decide (a.status = RunStatus.QUEUED) = false := by simp [hq2]
        rw [hd]
        simp only [Bool.false_eq_true, if_false]
        exact hih

theorem queuedCount_claim (db : Db) (r : Run) (w : String) (now : Int)
    (hnd : RunIdsNodup db) (hr : r ∈ db.runs) (hq : r.status = RunStatus.QUEUED) :
    queuedCount (updateRun db r.id (claimUpdate w now)) + 1 = queuedCount db :=
  countQueued_update_list r.id (claimUpdate w now)
    (fun x => by simp [claimUpdate]) db.runs hnd r hr rfl hq

theorem pvClosed_claim_update (db : Db) (i : String) (w : String) (now : Int)
    (hpv : PvClosed db) :
    PvClosed (updateRun db i (claimUpdate w now)) := by
  intro x hx hq
  obtain ⟨y, hy, rfl⟩ := List.mem_map.mp hx
  by_cases c : y.id = i
  · rw [if_pos c] at hq
    exact absurd hq (by simp [claimUpdate])
  · rw [if_neg c] at hq ⊢
    show (findVersion db y.pipeline_version_id).isSome = true
    exact hpv y hy hq

theorem queued_id_mem (db : Db) (r : Run) (hr : r ∈ db.runs)
    (hq : r.status = RunStatus.QUEUED) : r.id ∈ queuedIds db :=
  List.mem_map_of_mem _ (List.mem_filter.mpr ⟨hr, by simp [hq]⟩)

theorem queuedIds_claim_subset (db : Db) (i : String) (w : String) (now : Int) :
    queuedIds (updateRun db i (claimUpdate w now)) ⊆ queuedIds db := by
  intro j hj
  unfold queuedIds at hj ⊢
  obtain ⟨x, hx, rfl⟩ := List.mem_map.mp hj
  obtain ⟨hxm, hxq⟩ := List.mem_filter.mp hx
  obtain ⟨y, hy, rfl⟩ := List.mem_map.mp hxm
  by_cases c : y.id = i
  · rw [if_pos c] at hxq
    exact absurd hxq (by simp [claimUpdate])
  · rw [if_neg c] at hxq ⊢
    exact List.mem_map_of_mem _ (List.mem_filter.mpr ⟨hy, hxq⟩)

theorem claimed_id_not_queued (db : Db) (r : Run) (w : String) (now : Int)
    (hnd : RunIdsNodup db) :
    r.id ∉ queuedIds (updateRun db r.id (claimUpdate w now)) := by
  intro hmem
  unfold queuedIds at hmem
  obtain ⟨x, hx, hxid⟩ := List.mem_map.mp hmem
  obtain ⟨hxm, hxq⟩ := List.mem_filter.mp hx
  obtain ⟨y, hy, rfl⟩ := List.mem_map.mp hxm
  by_cases c : y.id = r.id
  · rw [if_pos c] at hxq
    exact absurd hxq (by simp [claimUpdate])
  · rw [if_neg c] at hxq hxid
    exact c hxid

theorem runClaims_spec : ∀ (workers : List String) (db : Db) (now : Int),
    RunIdsNodup db → PvClosed db →
    (claimedIds (runClaims db workers now).1).length =
      min workers.length (queuedCount db) ∧
    (claimedIds (runClaims db workers now).1).Nodup ∧
    (∀ i ∈ claimedIds (runClaims db workers now).1, i ∈ queuedIds db) := by
  intro workers
  induction workers with
  | nil =>
    intro db now _ _
    refine ⟨by simp [runClaims, claimedIds], by simp [runClaims, claimedIds], ?_⟩
    intro i hi
    simp [runClaims, claimedIds] at hi
  | cons w ws ih =>
    intro db now hnd hpv
    by_cases hk : queuedCount db = 0
    · have hclaim := claim_run_empty db w now hk
      have hstep : runClaims db (w :: ws) now =
          (ClaimResult.notClaimed :: (runClaims db ws now).1,
            (runClaims db ws now).2) := by
        simp [runClaims, hclaim]
      obtain ⟨ih1, ih2, ih3⟩ := ih db now hnd hpv
      rw [hstep]
      have hcid : claimedIds (ClaimResult.notClaimed :: (runClaims db ws now).1) =
          claimedIds (runClaims db ws now).1 := by
        simp [claimedIds, ClaimResult.claimedId]
      rw [hcid]
      refine ⟨?_, ih2, ih3⟩
      rw [ih1, hk]
      simp
    · obtain ⟨r, pv, hrmem, hrq, hpveq, heq⟩ :=
        claim_run_nonempty db w now hnd hpv (Nat.pos_of_ne_zero hk)
      have hnd2 : RunIdsNodup (updateRun db r.id (claimUpdate w now)) := by
        show ((updateRun db r.id (claimUpdate w now)).runs.map Run.id).Nodup
        rw [updateRun_map_id db r.id (claimUpdate w now) (fun x => rfl)]
        exact hnd
      have hpv2 := pvClosed_claim_update db r.id w now hpv
      have hcount := queuedCount_claim db r w now hnd hrmem hrq
      obtain ⟨ih1, ih2, ih3⟩ :=
        ih (updateRun db r.id (claimUpdate w now)) now hnd2 hpv2
      have hstep : runClaims db (w :: ws) now =
          (ClaimResult.claimed (claimUpdate w now r) pv ::
              (runClaims (updateRun db r.id (claimUpdate w now)) ws now).1,
            (runClaims (updateRun db r.id (claimUpdate w now)) ws now).2) := by
        simp [runClaims, heq]
      rw [hstep]
      have hcid : claimedIds (ClaimResult.claimed (claimUpdate w now r) pv ::
          (runClaims (updateRun db r.id (claimUpdate w now)) ws now).1) =
          r.id :: claimedIds (runClaims (updateRun db r.id (claimUpdate w now)) ws now).1 := by
        simp [claimedIds, ClaimResult.claimedId]
        rfl
      rw [hcid]
      refine ⟨?_, ?_, ?_⟩
      · rw [List.length_cons, ih1]
        rw [← hcount]
        rw [List.length_cons]
        rw [Nat.succ_min_succ]
      · rw [List.nodup_cons]
        constructor
        · intro hcontra
          exact claimed_id_not_queued db r w now hnd (ih3 r.id hcontra)
        · exact ih2
      · intro i hi
        rcases List.mem_cons.mp hi with hi | hi
        · rw [hi]
          exact queued_id_mem db r hrmem hrq
        · exact queuedIds_claim_subset db r.id w now (ih3 i hi)

/-- C9: a set of N concurrent claim calls serializes through the row locks;
executed in any serialization order against a state whose QUEUED runs all
reference existing pipeline versions, exactly min(N, K) of the calls return
a claimed run when K runs are QUEUED, and the returned run ids are pairwise
distinct, so no two calls ever return the same run. -/
theorem claim_concurrency (db : Db) (workers : List String) (now : Int)
    (hnd : RunIdsNodup db) (hpv : PvClosed db) :
    (claimedIds (runClaims db workers now).1).length =
      min workers.length (queuedCount db) ∧
    (claimedIds (runClaims db workers now).1).Nodup :=
  ⟨(runClaims_spec workers db now hnd hpv).1,
    (runClaims_spec workers db now hnd hpv).2.1⟩

theorem claim_concurrency_witness :
    RunIdsNodup dbQueue ∧ PvClosed dbQueue ∧
    ((claimedIds (runClaims dbQueue ["w1", "w2", "w3"] 100).1).length =
      min (["w1", "w2", "w3"] : List String).length (queuedCount dbQueue) ∧
    (claimedIds (runClaims dbQueue ["w1", "w2", "w3"] 100).1).Nodup) :=
  ⟨by decide, by decide,
    claim_concurrency dbQueue ["w1", "w2", "w3"] 100 (by decide) (by decide)⟩

end ARI
